import Mathlib

/-!
Verification development for a market-making quoting engine.

The embedding models the quoting core: pure price math (`priceUtils`),
the risk evaluator (`DeviationCheckService`), and the orchestrator state
(`PriceSnapshotService`: trading-pair slots, in-flight lock sets,
reconciliation of order-status events, placement, deviation cancels and
the shutdown bulk cancel).  Exchange prices and quantities are modelled
as rationals; network calls are modelled by explicit outcome parameters.
-/

namespace MarketMaker

/-- Order side: BID (buy) or ASK (sell). -/
inductive OrderSide where
  | BID
  | ASK
deriving DecidableEq, Repr

/-- Order status as reported by the exchange. -/
inductive OrderStatus where
  | NEW
  | FILLED
  | PARTIALLY_FILLED
  | CANCELED
  | EXPIRED
deriving DecidableEq, Repr

/-- Position side. -/
inductive PositionSide where
  | LONG
  | SHORT
deriving DecidableEq, Repr

/-- An order tracked by the engine.  `status` is optional because the
shutdown collection treats a missing (falsy) status like `NEW`. -/
structure Order where
  id : String
  ticker : String
  side : OrderSide
  price : ℚ
  quantity : ℚ
  quantityFilled : ℚ
  status : Option OrderStatus
  timestamp : ℤ
deriving DecidableEq, Repr

/-- An open position (inventory record). -/
structure Position where
  ticker : String
  side : PositionSide
  quantity : ℚ
  entryPrice : ℚ
  timestamp : ℤ
deriving DecidableEq, Repr

/-- Per-instrument trading state: at most one live order per side plus
optional long/short inventory. -/
structure TradingPair where
  ticker : String
  bidOrder : Option Order := none
  askOrder : Option Order := none
  longPosition : Option Position := none
  shortPosition : Option Position := none
deriving DecidableEq, Repr

/-- Market state snapshot used by the deviation checker. -/
structure MarketState where
  ticker : String
  midPrice : ℚ
  bidPrice : ℚ
  askPrice : ℚ
  maxDeviationPrice : ℚ
  timestamp : ℤ
deriving DecidableEq, Repr

/-- Per-asset trading configuration. -/
structure AssetConfig where
  ticker : String
  orderSize : ℚ
  spreadWidth : ℚ
  maxPriceDeviation : ℚ
  tickSize : Option ℚ := none
  productId : Option String := none
deriving DecidableEq, Repr

/-- Market-making configuration: the list of asset configs. -/
structure MarketConfig where
  assets : List AssetConfig
deriving DecidableEq, Repr

/-! ### priceUtils -/

/-- `basisPointsToDecimal(bp) = bp / 10000`. -/
def basisPointsToDecimal (basisPoints : ℚ) : ℚ :=
  basisPoints / 10000

/-- `calculateBidPrice(mid, bp) = mid - mid * basisPointsToDecimal(bp)`
(full-offset placement target). -/
def calculateBidPrice (midPrice spreadBasisPoints : ℚ) : ℚ :=
  midPrice - midPrice * basisPointsToDecimal spreadBasisPoints

/-- `calculateAskPrice(mid, bp) = mid + mid * basisPointsToDecimal(bp)`
(full-offset placement target). -/
def calculateAskPrice (midPrice spreadBasisPoints : ℚ) : ℚ :=
  midPrice + midPrice * basisPointsToDecimal spreadBasisPoints

/-- `calculateMaxDeviationAmount(price, pct) = price * pct / 100`. -/
def calculateMaxDeviationAmount (price deviationPercent : ℚ) : ℚ :=
  price * (deviationPercent / 100)

/-- `calculatePriceDeviation(a, b) = |a - b|`. -/
def calculatePriceDeviation (price1 price2 : ℚ) : ℚ :=
  |price1 - price2|

/-- `calculateSpreadAmount(mid, bp) = mid * basisPointsToDecimal(bp)`. -/
def calculateSpreadAmount (midPrice spreadBasisPoints : ℚ) : ℚ :=
  midPrice * basisPointsToDecimal spreadBasisPoints

/-- `roundToTickSize(p, tick) = round(p / tick) * tick`
(`Math.round` rounds half toward positive infinity, as does `round` on ℚ). -/
def roundToTickSize (price tickSize : ℚ) : ℚ :=
  (round (price / tickSize) : ℤ) * tickSize

/-! ### DeviationCheckService -/

/-- Effective spread width used by `calculateMarketState`:
`config.assets.find(a => a.ticker === ticker)?.spreadWidth || 10`
(JS falsy fallback: missing config or zero spread falls back to 10 bp). -/
def effectiveSpreadWidth (config : MarketConfig) (ticker : String) : ℚ :=
  match config.assets.find? (fun a => a.ticker = ticker) with
  | some a => if a.spreadWidth = 0 then 10 else a.spreadWidth
  | none => 10

/-- `DeviationCheckService.calculateMarketState`: half-offset projection
prices around the mid and the absolute deviation threshold. -/
def calculateMarketState (config : MarketConfig) (ticker : String)
    (currentPrice maxDeviation : ℚ) (now : ℤ) : MarketState :=
  let maxDeviationPrice := calculateMaxDeviationAmount currentPrice maxDeviation
  let spreadAmount := calculateSpreadAmount currentPrice (effectiveSpreadWidth config ticker)
  { ticker := ticker
    midPrice := currentPrice
    bidPrice := currentPrice - spreadAmount / 2
    askPrice := currentPrice + spreadAmount / 2
    maxDeviationPrice := maxDeviationPrice
    timestamp := now }

/-- Result of the risk evaluation. -/
structure DeviationChecks where
  shouldCancelBid : Bool
  shouldCancelAsk : Bool
  shouldClosePositions : Bool
deriving DecidableEq, Repr

/-- `DeviationCheckService.checkOrdersAndPositions`: flag a side for
cancellation when its order is present with status NEW and its price
deviates from the mid by strictly more than the threshold; flag
position closure likewise from the entry price. -/
def checkOrdersAndPositions (tradingPair : TradingPair) (marketState : MarketState) :
    DeviationChecks :=
  let shouldCancelBid :=
    match tradingPair.bidOrder with
    | some o =>
        decide (o.status = some OrderStatus.NEW ∧
          calculatePriceDeviation o.price marketState.midPrice > marketState.maxDeviationPrice)
    | none => false
  let shouldCancelAsk :=
    match tradingPair.askOrder with
    | some o =>
        decide (o.status = some OrderStatus.NEW ∧
          calculatePriceDeviation o.price marketState.midPrice > marketState.maxDeviationPrice)
    | none => false
  let closeLong :=
    match tradingPair.longPosition with
    | some p =>
        decide (calculatePriceDeviation p.entryPrice marketState.midPrice >
          marketState.maxDeviationPrice)
    | none => false
  let closeShort :=
    match tradingPair.shortPosition with
    | some p =>
        decide (calculatePriceDeviation p.entryPrice marketState.midPrice >
          marketState.maxDeviationPrice)
    | none => false
  { shouldCancelBid := shouldCancelBid
    shouldCancelAsk := shouldCancelAsk
    shouldClosePositions := closeLong || closeShort }

/-! ### PriceSnapshotService: reconciliation of order-status events -/

/-- One step of `updateOrderStatus` on a single trading pair: check the bid
slot, then the ask slot, against the event's order id.  A slot holding the
id is cleared when the status is CANCELED or EXPIRED and has its status
field overwritten otherwise.  Returns the updated pair and whether any
slot was acted upon (the loop breaks on the first such pair). -/
def updatePairWithEvent (orderId : String) (status : OrderStatus) (tp : TradingPair) :
    TradingPair × Bool :=
  let bidStep :
      Option Order × Bool :=
    match tp.bidOrder with
    | some o =>
        if o.id = orderId then
          if status = OrderStatus.CANCELED ∨ status = OrderStatus.EXPIRED then
            (none, true)
          else
            (some { o with status := some status }, true)
        else (some o, false)
    | none => (none, false)
  let askStep :
      Option Order × Bool :=
    match tp.askOrder with
    | some o =>
        if o.id = orderId then
          if status = OrderStatus.CANCELED ∨ status = OrderStatus.EXPIRED then
            (none, true)
          else
            (some { o with status := some status }, true)
        else (some o, false)
    | none => (none, false)
  ({ tp with bidOrder := bidStep.1, askOrder := askStep.1 }, bidStep.2 || askStep.2)

/-- `PriceSnapshotService.updateOrderStatus`: scan the trading pairs in
order, apply the event to the first pair holding the order id, and stop
there; pairs without the id are left unchanged. -/
def updateOrderStatus (orderId : String) (status : OrderStatus) :
    List TradingPair → List TradingPair
  | [] => []
  | tp :: rest =>
      let step := updatePairWithEvent orderId status tp
      if step.2 then step.1 :: rest
      else tp :: updateOrderStatus orderId status rest

/-! ### PriceSnapshotService: active orders and the shutdown bulk cancel -/

/-- An entry of `getAllActiveOrders`. -/
structure ActiveOrderEntry where
  ticker : String
  orderId : String
  side : OrderSide
deriving DecidableEq, Repr

/-- `id.startsWith('position-')`, written as a character-list prefix
test (the same semantics for these ASCII ids) so that it computes by
reduction. -/
def startsWithPosition (s : String) : Bool :=
  "position-".data.isPrefixOf s.data

/-- Is a slot order collected by `getAllActiveOrders`?  The source keeps
an order whose status is NEW or falsy (missing) and whose id does not
start with `position-`. -/
def isActiveOrder (o : Order) : Bool :=
  (o.status = some OrderStatus.NEW || o.status = none) &&
    !(startsWithPosition o.id)

/-- The entries `getAllActiveOrders` collects from one trading pair:
bid slot first, then ask slot. -/
def activeEntriesOfPair (tp : TradingPair) : List ActiveOrderEntry :=
  (match tp.bidOrder with
   | some o => if isActiveOrder o then [⟨tp.ticker, o.id, OrderSide.BID⟩] else []
   | none => []) ++
  (match tp.askOrder with
   | some o => if isActiveOrder o then [⟨tp.ticker, o.id, OrderSide.ASK⟩] else []
   | none => [])

/-- `PriceSnapshotService.getAllActiveOrders`: all active entries across
the trading pairs, in iteration order. -/
def getAllActiveOrders (pairs : List TradingPair) : List ActiveOrderEntry :=
  pairs.flatMap activeEntriesOfPair

/-- Bulk cancel request (`CancelOrderRequest`). -/
structure CancelOrderRequest where
  order_ids : List String
  subaccount : String
deriving DecidableEq, Repr

/-- JS falsiness of `process.env.ETHEREAL_SUBACCOUNT`: unset or empty. -/
def subaccountMissing : Option String → Bool
  | none => true
  | some s => s.isEmpty

/-- Clear both order slots of a pair (shutdown cleanup loop body). -/
def clearOrderSlots (tp : TradingPair) : TradingPair :=
  { tp with bidOrder := none, askOrder := none }

/-- Outcome of `cancelAllActiveOrders`: final trading pairs and lock sets,
the bulk cancel request sent (if any), and whether the missing-subaccount
error was logged. -/
structure CancelAllResult where
  pairs : List TradingPair
  creationLocks : List String
  cancellationLocks : List String
  cancelCall : Option CancelOrderRequest
  subaccountErrorLogged : Bool
deriving DecidableEq, Repr

/-- `PriceSnapshotService.cancelAllActiveOrders`.  Control flow of the
source: return early when there are no active orders; log an error and
return when the subaccount env is falsy; otherwise clear both in-flight
lock sets, send one bulk cancel with every active order id, and on
success clear every pair's slots (on failure the catch leaves them).
`cancelSucceeds` models whether the network call throws. -/
def cancelAllActiveOrders (subaccountEnv : Option String) (cancelSucceeds : Bool)
    (pairs : List TradingPair) (creationLocks cancellationLocks : List String) :
    CancelAllResult :=
  let activeOrders := getAllActiveOrders pairs
  if activeOrders.isEmpty then
    ⟨pairs, creationLocks, cancellationLocks, none, false⟩
  else if subaccountMissing subaccountEnv then
    ⟨pairs, creationLocks, cancellationLocks, none, true⟩
  else
    let sub := subaccountEnv.getD ""
    let request : CancelOrderRequest :=
      ⟨activeOrders.map (fun e => e.orderId), sub⟩
    if cancelSucceeds then
      ⟨pairs.map clearOrderSlots, [], [], some request, false⟩
    else
      ⟨pairs, [], [], some request, false⟩

/-! ### Engine state, map helpers and lock sets -/

/-- In-memory engine state: trading pairs in map iteration order plus the
two in-flight lock sets (`orderCreationInProgress` keyed by ticker,
`orderCancellationInProgress` keyed by ticker-side-orderId). -/
structure EngineState where
  pairs : List TradingPair
  creationLocks : List String
  cancellationLocks : List String
deriving DecidableEq, Repr

/-- `tradingPairs.get(ticker)`. -/
def lookupPair (pairs : List TradingPair) (ticker : String) : Option TradingPair :=
  pairs.find? (fun p => p.ticker = ticker)

/-- `tradingPairs.set(tp.ticker, tp)`: replace the entry with that ticker,
or append a new one. -/
def setPair (pairs : List TradingPair) (tp : TradingPair) : List TradingPair :=
  if pairs.any (fun p => p.ticker = tp.ticker) then
    pairs.map (fun p => if p.ticker = tp.ticker then tp else p)
  else pairs ++ [tp]

/-- `Set.add`: insert a key if absent. -/
def insertLock (key : String) (locks : List String) : List String :=
  if key ∈ locks then locks else key :: locks

/-! ### orderUtils and order requests -/

/-- `generateExpiresAt(m) = floor(now_ms / 1000) + m * 60`. -/
def generateExpiresAt (nowMs minutesFromNow : ℤ) : ℤ :=
  Int.fdiv nowMs 1000 + minutesFromNow * 60

/-- `convertSideToNumber`: BUY maps to 0, anything else to 1. -/
def convertSideToNumber (side : String) : ℕ :=
  if side = "BUY" then 0 else 1

/-- Order placement request (`CreateOrderRequest`).  It carries no
exchange order id: ids exist only in responses. -/
structure CreateOrderRequest where
  order_type : String
  quantity : ℚ
  side : ℕ
  price : Option ℚ
  ticker : String
  client_order_id : Option String := none
  time_in_force : String
  expires_at : Option ℤ
deriving DecidableEq, Repr

/-- `config.tickSize || 1` (JS falsy: missing or zero falls back to 1). -/
def effectiveTickSize (config : AssetConfig) : ℚ :=
  match config.tickSize with
  | some t => if t = 0 then 1 else t
  | none => 1

/-- The bid placement request built by `createBidOrder`: full-offset bid
target rounded to the tick size, GTD with a 5-minute expiry. -/
def createBidRequest (ticker : String) (currentPrice : ℚ) (config : AssetConfig)
    (nowMs : ℤ) : CreateOrderRequest :=
  let bidPrice := calculateBidPrice currentPrice config.spreadWidth
  { order_type := "LIMIT"
    quantity := config.orderSize
    side := convertSideToNumber "BUY"
    price := some (roundToTickSize bidPrice (effectiveTickSize config))
    ticker := ticker
    time_in_force := "GTD"
    expires_at := some (generateExpiresAt nowMs 5) }

/-- The ask placement request built by `createAskOrder`. -/
def createAskRequest (ticker : String) (currentPrice : ℚ) (config : AssetConfig)
    (nowMs : ℤ) : CreateOrderRequest :=
  let askPrice := calculateAskPrice currentPrice config.spreadWidth
  { order_type := "LIMIT"
    quantity := config.orderSize
    side := convertSideToNumber "SELL"
    price := some (roundToTickSize askPrice (effectiveTickSize config))
    ticker := ticker
    time_in_force := "GTD"
    expires_at := some (generateExpiresAt nowMs 5) }

/-- The order installed in a slot after a placement response with an id. -/
def placedOrder (orderId ticker : String) (side : OrderSide)
    (req : CreateOrderRequest) (nowMs : ℤ) : Order :=
  { id := orderId
    ticker := ticker
    side := side
    price := req.price.getD 0
    quantity := req.quantity
    quantityFilled := 0
    status := some OrderStatus.NEW
    timestamp := nowMs }

/-! ### Network emissions and step outputs -/

/-- A request sent to the exchange adapter. -/
inductive Emission where
  | place (req : CreateOrderRequest)
  | cancel (req : CancelOrderRequest)
deriving DecidableEq, Repr

/-- The exchange order ids an emission mentions: a placement request
mentions none (the request type has no order-id field), a cancel request
mentions its `order_ids`. -/
def Emission.orderIds : Emission → List String
  | Emission.place _ => []
  | Emission.cancel req => req.order_ids

/-- Result of a placement pass: the new state and the placement requests
sent to the adapter. -/
structure PlacementOutput where
  state : EngineState
  emitted : List CreateOrderRequest
deriving DecidableEq, Repr

/-- Result of a deviation pass: the new state and the cancel requests
sent to the adapter. -/
structure DeviationOutput where
  state : EngineState
  emitted : List CancelOrderRequest
deriving DecidableEq, Repr

/-- Outcome of one `placeOrder` network call: a response (whose
`order.id` may be absent) or a thrown error. -/
inductive PlaceOutcome where
  | ok (orderId : Option String)
  | exn
deriving DecidableEq, Repr

/-! ### Placement (`checkAndCreateOrders`) -/

/-- `PriceSnapshotService.checkAndCreateOrders`: skip when no config for
the ticker or when the per-instrument creation lock is held; otherwise,
when a side's slot is empty, take the lock, submit the missing side(s)
(bid first; a thrown bid placement skips the ask), install responses
bearing an order id, and release the lock on every exit path (the
`finally` clause). -/
def checkAndCreateOrders (assetConfigs : List AssetConfig) (nowMs : ℤ)
    (bidOutcome askOutcome : PlaceOutcome) (ticker : String) (currentPrice : ℚ)
    (s : EngineState) : PlacementOutput :=
  match assetConfigs.find? (fun c => c.ticker = ticker) with
  | none => ⟨s, []⟩
  | some config =>
    if ticker ∈ s.creationLocks then ⟨s, []⟩
    else
      let tp := (lookupPair s.pairs ticker).getD { ticker := ticker }
      let needsBid := tp.bidOrder.isNone
      let needsAsk := tp.askOrder.isNone
      if needsBid || needsAsk then
        let lockedLocks := insertLock ticker s.creationLocks
        let bidReq := createBidRequest ticker currentPrice config nowMs
        let askReq := createAskRequest ticker currentPrice config nowMs
        let bidLeg : List TradingPair × List CreateOrderRequest × Bool :=
          if needsBid then
            match bidOutcome with
            | PlaceOutcome.exn => (s.pairs, [bidReq], true)
            | PlaceOutcome.ok none => (s.pairs, [bidReq], false)
            | PlaceOutcome.ok (some orderId) =>
                let tpNow := (lookupPair s.pairs ticker).getD { ticker := ticker }
                (setPair s.pairs
                  { tpNow with bidOrder := some (placedOrder orderId ticker OrderSide.BID bidReq nowMs) },
                 [bidReq], false)
          else (s.pairs, [], false)
        let askLeg : List TradingPair × List CreateOrderRequest :=
          if !bidLeg.2.2 && needsAsk then
            match askOutcome with
            | PlaceOutcome.exn => (bidLeg.1, [askReq])
            | PlaceOutcome.ok none => (bidLeg.1, [askReq])
            | PlaceOutcome.ok (some orderId) =>
                let tpNow := (lookupPair bidLeg.1 ticker).getD { ticker := ticker }
                (setPair bidLeg.1
                  { tpNow with askOrder := some (placedOrder orderId ticker OrderSide.ASK askReq nowMs) },
                 [askReq])
          else (bidLeg.1, [])
        ⟨⟨askLeg.1, List.erase lockedLocks ticker, s.cancellationLocks⟩,
          bidLeg.2.1 ++ askLeg.2⟩
      else ⟨s, []⟩

/-! ### Deviation cancels (engine `checkOrdersAndPositions` + `cancelOrder`) -/

/-- `PriceSnapshotService.cancelOrder`: with a falsy subaccount env, log
and return; otherwise send a one-element cancel and, on success, clear
the side's slot (on a thrown call the catch leaves the slot). -/
def cancelOrderAction (subaccountEnv : Option String) (cancelSucceeds : Bool)
    (ticker orderId : String) (side : OrderSide)
    (pairs : List TradingPair) : List TradingPair × List CancelOrderRequest :=
  if subaccountMissing subaccountEnv then (pairs, [])
  else
    let req : CancelOrderRequest := ⟨[orderId], subaccountEnv.getD ""⟩
    if cancelSucceeds then
      match lookupPair pairs ticker with
      | some tp =>
          let cleared :=
            match side with
            | OrderSide.BID => { tp with bidOrder := none }
            | OrderSide.ASK => { tp with askOrder := none }
          (setPair pairs cleared, [req])
      | none => (pairs, [req])
    else (pairs, [req])

/-- `PriceSnapshotService.checkOrdersAndPositions` (the cadence risk
pass): evaluate the risk checks against the half-spread market state and
cancel each flagged side unless its (ticker, side, orderId) key is in
the cancellation-in-flight set; the key is added before the network call
and removed in the `finally`, so the lock set is unchanged on return. -/
def deviationCheckStep (devConfig : MarketConfig) (assetConfigs : List AssetConfig)
    (subaccountEnv : Option String) (bidCancelOk askCancelOk : Bool) (nowMs : ℤ)
    (ticker : String) (currentPrice : ℚ) (s : EngineState) : DeviationOutput :=
  match lookupPair s.pairs ticker with
  | none => ⟨s, []⟩
  | some tp =>
    match assetConfigs.find? (fun c => c.ticker = ticker) with
    | none => ⟨s, []⟩
    | some config =>
      let ms := calculateMarketState devConfig ticker currentPrice config.maxPriceDeviation nowMs
      let checks := checkOrdersAndPositions tp ms
      let bidLeg : List TradingPair × List CancelOrderRequest :=
        match tp.bidOrder with
        | some o =>
            if checks.shouldCancelBid then
              if (ticker ++ "-bid-" ++ o.id) ∈ s.cancellationLocks then (s.pairs, [])
              else cancelOrderAction subaccountEnv bidCancelOk ticker o.id OrderSide.BID s.pairs
            else (s.pairs, [])
        | none => (s.pairs, [])
      let askLeg : List TradingPair × List CancelOrderRequest :=
        match tp.askOrder with
        | some o =>
            if checks.shouldCancelAsk then
              if (ticker ++ "-ask-" ++ o.id) ∈ s.cancellationLocks then (bidLeg.1, [])
              else cancelOrderAction subaccountEnv askCancelOk ticker o.id OrderSide.ASK bidLeg.1
            else (bidLeg.1, [])
        | none => (bidLeg.1, [])
      ⟨⟨askLeg.1, s.creationLocks, s.cancellationLocks⟩, bidLeg.2 ++ askLeg.2⟩

/-! ### Paired-fill cleanup -/

/-- `cleanupCompletedTradingPairs`: when both slots hold FILLED orders,
clear both. -/
def cleanupCompletedTradingPairs (ticker : String) (pairs : List TradingPair) :
    List TradingPair :=
  match lookupPair pairs ticker with
  | none => pairs
  | some tp =>
      let bidFilled :=
        match tp.bidOrder with
        | some o => decide (o.status = some OrderStatus.FILLED)
        | none => false
      let askFilled :=
        match tp.askOrder with
        | some o => decide (o.status = some OrderStatus.FILLED)
        | none => false
      if bidFilled && askFilled then
        setPair pairs { tp with bidOrder := none, askOrder := none }
      else pairs

/-! ### Position warmup (`loadExistingPositions`) -/

/-- A position from the warmup query, with quantity and entry price
already parsed to numbers (`parseFloat` of the raw strings). -/
structure ParsedPosition where
  productId : Option String := none
  productTicker : Option String := none
  ticker : Option String := none
  quantity : ℚ := 0
  entryPrice : ℚ := 0
deriving DecidableEq, Repr

/-- JS `a || b` over optional strings (empty string is falsy). -/
def jsOrString : Option String → Option String → Option String
  | some s, b => if s.isEmpty then b else some s
  | none, b => b

/-- Ticker resolution of `loadExistingPositions`:
`position.productTicker || position.ticker`, else look the productId up
in the asset configs; a position without a resolvable ticker is skipped. -/
def resolveTicker (assetConfigs : List AssetConfig) (pos : ParsedPosition) :
    Option String :=
  match jsOrString pos.productTicker pos.ticker with
  | some t => some t
  | none =>
    match pos.productId with
    | some pid =>
        if pid.isEmpty then none
        else (assetConfigs.find? (fun c => c.productId = some pid)).map (fun c => c.ticker)
    | none => none

/-- The productId as interpolated into the synthetic order id
(JS renders a missing value as the text "undefined"). -/
def pidString (pos : ParsedPosition) : String :=
  match pos.productId with
  | some s => s
  | none => "undefined"

/-- Per-position body of `loadExistingPositions`: a positive quantity
installs a LONG inventory record and a synthetic FILLED bid order with
id `position-bid-<productId>`; a negative quantity installs a SHORT
record and a synthetic FILLED ask with id `position-ask-<productId>`;
a zero quantity only re-stores the (possibly fresh) pair. -/
def processPosition (assetConfigs : List AssetConfig) (now : ℤ)
    (pairs : List TradingPair) (pos : ParsedPosition) : List TradingPair :=
  match resolveTicker assetConfigs pos with
  | none => pairs
  | some t =>
    let tp := (lookupPair pairs t).getD { ticker := t }
    let q := pos.quantity
    let tp' :=
      if 0 < q then
        { tp with
          longPosition := some ⟨t, PositionSide.LONG, |q|, pos.entryPrice, now⟩
          bidOrder := some ⟨"position-bid-" ++ pidString pos, t, OrderSide.BID,
            pos.entryPrice, |q|, |q|, some OrderStatus.FILLED, now⟩ }
      else if q < 0 then
        { tp with
          shortPosition := some ⟨t, PositionSide.SHORT, |q|, pos.entryPrice, now⟩
          askOrder := some ⟨"position-ask-" ++ pidString pos, t, OrderSide.ASK,
            pos.entryPrice, |q|, |q|, some OrderStatus.FILLED, now⟩ }
      else tp
    setPair pairs tp'

/-- `loadExistingPositions`: fold the per-position body over the
positions the warmup query returned. -/
def loadExistingPositions (assetConfigs : List AssetConfig) (now : ℤ)
    (pairs : List TradingPair) (positions : List ParsedPosition) : List TradingPair :=
  positions.foldl (processPosition assetConfigs now) pairs

/-! ### The engine's step relation -/

/-- The shutdown procedure's result on an engine state. -/
def shutdownResult (subaccountEnv : Option String) (cancelSucceeds : Bool)
    (s : EngineState) : CancelAllResult :=
  cancelAllActiveOrders subaccountEnv cancelSucceeds s.pairs s.creationLocks s.cancellationLocks

/-- The engine state after the shutdown procedure. -/
def shutdownState (subaccountEnv : Option String) (cancelSucceeds : Bool)
    (s : EngineState) : EngineState :=
  let r := shutdownResult subaccountEnv cancelSucceeds s
  ⟨r.pairs, r.creationLocks, r.cancellationLocks⟩

/-- The emissions of the shutdown procedure (at most one bulk cancel). -/
def shutdownEmissions (subaccountEnv : Option String) (cancelSucceeds : Bool)
    (s : EngineState) : List Emission :=
  (shutdownResult subaccountEnv cancelSucceeds s).cancelCall.toList.map Emission.cancel

/-- One engine transition: position warmup, an order-status event, a
cadence deviation pass, a cadence placement pass, paired-fill cleanup,
or the shutdown bulk cancel.  The label is the list of requests the
transition sends to the exchange adapter. -/
inductive Step : EngineState → List Emission → EngineState → Prop where
  | warmup (assetConfigs : List AssetConfig) (now : ℤ) (pos : ParsedPosition)
      (s : EngineState) :
      Step s [] { s with pairs := processPosition assetConfigs now s.pairs pos }
  | statusEvent (orderId : String) (status : OrderStatus) (s : EngineState) :
      Step s [] { s with pairs := updateOrderStatus orderId status s.pairs }
  | deviationPass (devConfig : MarketConfig) (assetConfigs : List AssetConfig)
      (subaccountEnv : Option String) (bidCancelOk askCancelOk : Bool) (nowMs : ℤ)
      (ticker : String) (currentPrice : ℚ) (s : EngineState) :
      Step s
        ((deviationCheckStep devConfig assetConfigs subaccountEnv bidCancelOk askCancelOk
          nowMs ticker currentPrice s).emitted.map Emission.cancel)
        (deviationCheckStep devConfig assetConfigs subaccountEnv bidCancelOk askCancelOk
          nowMs ticker currentPrice s).state
  | placementPass (assetConfigs : List AssetConfig) (nowMs : ℤ)
      (bidOutcome askOutcome : PlaceOutcome) (ticker : String) (currentPrice : ℚ)
      (s : EngineState) :
      Step s
        ((checkAndCreateOrders assetConfigs nowMs bidOutcome askOutcome ticker currentPrice s).emitted.map
          Emission.place)
        (checkAndCreateOrders assetConfigs nowMs bidOutcome askOutcome ticker currentPrice s).state
  | pairedFillCleanup (ticker : String) (s : EngineState) :
      Step s [] { s with pairs := cleanupCompletedTradingPairs ticker s.pairs }
  | shutdownCancelAll (subaccountEnv : Option String) (cancelSucceeds : Bool)
      (s : EngineState) :
      Step s (shutdownEmissions subaccountEnv cancelSucceeds s)
        (shutdownState subaccountEnv cancelSucceeds s)

/-! ### Slot ids -/

/-- The ids held in one pair's slots (bid first). -/
def pairSlotIds (tp : TradingPair) : List String :=
  (match tp.bidOrder with | some o => [o.id] | none => []) ++
  (match tp.askOrder with | some o => [o.id] | none => [])

/-- All ids held in slots, in iteration order. -/
def slotIds (pairs : List TradingPair) : List String :=
  pairs.flatMap pairSlotIds

/-- `o` is held in a bid or ask slot of `pairs`. -/
def HeldInSlot (pairs : List TradingPair) (o : Order) : Prop :=
  ∃ tp ∈ pairs, tp.bidOrder = some o ∨ tp.askOrder = some o

/-! ### Helper lemmas -/

/-- Unfolding of the active-order filter into its two conditions. -/
theorem isActiveOrder_iff (o : Order) :
    isActiveOrder o = true ↔
      (o.status = some OrderStatus.NEW ∨ o.status = none) ∧
        startsWithPosition o.id = false := by
  simp [isActiveOrder, Bool.and_eq_true, Bool.or_eq_true, Bool.not_eq_true']

/-- The ids of one pair's active entries form a sublist of its slot ids. -/
theorem activeEntries_ids_sublist (tp : TradingPair) :
    List.Sublist ((activeEntriesOfPair tp).map (fun e => e.orderId)) (pairSlotIds tp) := by
  unfold activeEntriesOfPair pairSlotIds
  rw [List.map_append]
  refine List.Sublist.append ?_ ?_
  · cases tp.bidOrder with
    | none => simp
    | some o =>
        by_cases h : isActiveOrder o = true <;> simp [h]
  · cases tp.askOrder with
    | none => simp
    | some o =>
        by_cases h : isActiveOrder o = true <;> simp [h]

/-- The ids of all active entries form a sublist of all slot ids. -/
theorem getAllActiveOrders_ids_sublist (pairs : List TradingPair) :
    List.Sublist ((getAllActiveOrders pairs).map (fun e => e.orderId)) (slotIds pairs) := by
  induction pairs with
  | nil => simp [getAllActiveOrders, slotIds]
  | cons tp rest ih =>
      simp only [getAllActiveOrders, slotIds, List.flatMap_cons, List.map_append]
      exact List.Sublist.append (activeEntries_ids_sublist tp) ih

/-- Membership in a pair's active entries. -/
theorem mem_activeEntriesOfPair (tp : TradingPair) (e : ActiveOrderEntry) :
    e ∈ activeEntriesOfPair tp ↔
      (∃ o, tp.bidOrder = some o ∧ isActiveOrder o = true ∧
        e = ⟨tp.ticker, o.id, OrderSide.BID⟩) ∨
      (∃ o, tp.askOrder = some o ∧ isActiveOrder o = true ∧
        e = ⟨tp.ticker, o.id, OrderSide.ASK⟩) := by
  obtain ⟨tk, b, a, lp, sp⟩ := tp
  rcases b with _ | ob <;> rcases a with _ | oa
  · simp [activeEntriesOfPair]
  · by_cases ha : isActiveOrder oa = true <;> simp [activeEntriesOfPair, ha]
  · by_cases hb : isActiveOrder ob = true <;> simp [activeEntriesOfPair, hb]
  · by_cases hb : isActiveOrder ob = true <;> by_cases ha : isActiveOrder oa = true <;>
      simp [activeEntriesOfPair, hb, ha]

/-- Membership in the collected active order ids. -/
theorem mem_getAllActiveOrders_ids (pairs : List TradingPair) (id : String) :
    id ∈ (getAllActiveOrders pairs).map (fun e => e.orderId) ↔
      ∃ tp ∈ pairs, ∃ o, (tp.bidOrder = some o ∨ tp.askOrder = some o) ∧
        isActiveOrder o = true ∧ o.id = id := by
  simp only [getAllActiveOrders, List.mem_map, List.mem_flatMap]
  constructor
  · rintro ⟨e, ⟨tp, htp, he⟩, hid⟩
    rcases (mem_activeEntriesOfPair tp e).mp he with ⟨o, ho, hact, rfl⟩ | ⟨o, ho, hact, rfl⟩
    · exact ⟨tp, htp, o, Or.inl ho, hact, hid⟩
    · exact ⟨tp, htp, o, Or.inr ho, hact, hid⟩
  · rintro ⟨tp, htp, o, hslot, hact, hid⟩
    rcases hslot with ho | ho
    · exact ⟨⟨tp.ticker, o.id, OrderSide.BID⟩,
        ⟨tp, htp, (mem_activeEntriesOfPair tp _).mpr (Or.inl ⟨o, ho, hact, rfl⟩)⟩, hid⟩
    · exact ⟨⟨tp.ticker, o.id, OrderSide.ASK⟩,
        ⟨tp, htp, (mem_activeEntriesOfPair tp _).mpr (Or.inr ⟨o, ho, hact, rfl⟩)⟩, hid⟩

/-! ## Claims -/

/-- C2: the risk check flags a bid cancel exactly when a bid order is
present with status NEW and its absolute deviation from the mid price
strictly exceeds the threshold, symmetrically for the ask; equality with
the threshold never triggers a cancel. -/
theorem c2_risk_cancel_iff_strict_deviation (tradingPair : TradingPair)
    (marketState : MarketState) :
    ((checkOrdersAndPositions tradingPair marketState).shouldCancelBid = true ↔
      ∃ o, tradingPair.bidOrder = some o ∧ o.status = some OrderStatus.NEW ∧
        |o.price - marketState.midPrice| > marketState.maxDeviationPrice) ∧
    ((checkOrdersAndPositions tradingPair marketState).shouldCancelAsk = true ↔
      ∃ o, tradingPair.askOrder = some o ∧ o.status = some OrderStatus.NEW ∧
        |o.price - marketState.midPrice| > marketState.maxDeviationPrice) ∧
    (∀ o, tradingPair.bidOrder = some o →
      |o.price - marketState.midPrice| = marketState.maxDeviationPrice →
      (checkOrdersAndPositions tradingPair marketState).shouldCancelBid = false) ∧
    (∀ o, tradingPair.askOrder = some o →
      |o.price - marketState.midPrice| = marketState.maxDeviationPrice →
      (checkOrdersAndPositions tradingPair marketState).shouldCancelAsk = false) := by
  refine ⟨?_, ?_, ?_, ?_⟩
  · cases h : tradingPair.bidOrder with
    | none => simp [checkOrdersAndPositions, h]
    | some o => simp [checkOrdersAndPositions, h, calculatePriceDeviation]
  · cases h : tradingPair.askOrder with
    | none => simp [checkOrdersAndPositions, h]
    | some o => simp [checkOrdersAndPositions, h, calculatePriceDeviation]
  · intro o h heq
    simp [checkOrdersAndPositions, h, calculatePriceDeviation, heq]
  · intro o h heq
    simp [checkOrdersAndPositions, h, calculatePriceDeviation, heq]

/-- C10: the risk check reads only the trading pair, the mid price and
the deviation threshold from the market state; the projection bid/ask
prices, ticker and timestamp never influence its output. -/
theorem c10_risk_ignores_projection_prices (tradingPair : TradingPair)
    (midPrice maxDeviationPrice : ℚ) (ticker1 ticker2 : String)
    (bidPrice1 askPrice1 bidPrice2 askPrice2 : ℚ) (ts1 ts2 : ℤ) :
    checkOrdersAndPositions tradingPair
        ⟨ticker1, midPrice, bidPrice1, askPrice1, maxDeviationPrice, ts1⟩ =
      checkOrdersAndPositions tradingPair
        ⟨ticker2, midPrice, bidPrice2, askPrice2, maxDeviationPrice, ts2⟩ := by
  rfl

/-- C5: placement computes full-offset targets `mid ∓ mid * bp / 10000`
while the risk projection's market state computes half-offset targets
`mid ∓ (mid * bp / 10000) / 2`. -/
theorem c5_full_vs_half_offset (config : MarketConfig) (ticker : String)
    (mid spreadBp maxDeviation : ℚ) (now : ℤ)
    (h : effectiveSpreadWidth config ticker = spreadBp) :
    calculateBidPrice mid spreadBp = mid - mid * (spreadBp / 10000) ∧
    calculateAskPrice mid spreadBp = mid + mid * (spreadBp / 10000) ∧
    (calculateMarketState config ticker mid maxDeviation now).bidPrice =
      mid - (mid * spreadBp / 10000) / 2 ∧
    (calculateMarketState config ticker mid maxDeviation now).askPrice =
      mid + (mid * spreadBp / 10000) / 2 := by
  subst h
  refine ⟨?_, ?_, ?_, ?_⟩ <;>
    simp [calculateBidPrice, calculateAskPrice, calculateMarketState,
      calculateSpreadAmount, basisPointsToDecimal, calculateMaxDeviationAmount] <;>
    ring

/-- Witness for C5 at mid 50000, 10 bp spread, 5 percent deviation. -/
theorem c5_full_vs_half_offset_witness :
    calculateBidPrice 50000 10 = 50000 - 50000 * (10 / 10000) ∧
    calculateAskPrice 50000 10 = 50000 + 50000 * (10 / 10000) ∧
    (calculateMarketState ⟨[⟨"BTCUSD", 1, 10, 5, none, none⟩]⟩ "BTCUSD" 50000 5 0).bidPrice =
      50000 - (50000 * 10 / 10000) / 2 ∧
    (calculateMarketState ⟨[⟨"BTCUSD", 1, 10, 5, none, none⟩]⟩ "BTCUSD" 50000 5 0).askPrice =
      50000 + (50000 * 10 / 10000) / 2 :=
  c5_full_vs_half_offset ⟨[⟨"BTCUSD", 1, 10, 5, none, none⟩]⟩ "BTCUSD" 50000 10 5 0 (by rfl)

/-- C6 fails as stated: at the negative mid price -1 with a 10 bp
spread, the bid target lies strictly above the mid. -/
theorem c6_counterexample :
    ¬ (calculateBidPrice (-1) 10 ≤ -1 ∧ (-1 : ℚ) ≤ calculateAskPrice (-1) 10) := by
  norm_num [calculateBidPrice, calculateAskPrice, basisPointsToDecimal]

/-- C6 amended: for every nonnegative mid price and nonnegative spread,
the bid target is at most the mid and the ask target at least the mid;
at zero spread both targets equal the mid exactly (for every mid). -/
theorem c6_targets_bracket_mid :
    (∀ mid spreadBp : ℚ, 0 ≤ mid → 0 ≤ spreadBp →
      calculateBidPrice mid spreadBp ≤ mid ∧ mid ≤ calculateAskPrice mid spreadBp) ∧
    (∀ mid : ℚ, calculateBidPrice mid 0 = mid ∧ calculateAskPrice mid 0 = mid) := by
  constructor
  · intro mid bp hm hb
    have hpos : 0 ≤ mid * (bp / 10000) := by positivity
    constructor
    · simp only [calculateBidPrice, basisPointsToDecimal]
      linarith
    · simp only [calculateAskPrice, basisPointsToDecimal]
      linarith
  · intro mid
    constructor <;>
      simp [calculateBidPrice, calculateAskPrice, basisPointsToDecimal]

/-- C1: when the shutdown bulk cancel issues its request (there is at
least one active order and the subaccount is configured), the single
cancel call carries the configured subaccount and an order-id list that
contains, once each, exactly the ids of slot orders whose id does not
start with `position-` and whose status is NEW or missing. -/
theorem c1_shutdown_bulk_cancel_exact (pairs : List TradingPair)
    (creationLocks cancellationLocks : List String) (sub : String)
    (cancelSucceeds : Bool)
    (hsub : sub.isEmpty = false)
    (hndup : (slotIds pairs).Nodup)
    (hne : getAllActiveOrders pairs ≠ []) :
    ∃ req, (cancelAllActiveOrders (some sub) cancelSucceeds pairs
        creationLocks cancellationLocks).cancelCall = some req ∧
      req.subaccount = sub ∧
      req.order_ids.Nodup ∧
      (∀ id, id ∈ req.order_ids ↔
        ∃ tp ∈ pairs, ∃ o, (tp.bidOrder = some o ∨ tp.askOrder = some o) ∧
          o.id = id ∧ startsWithPosition o.id = false ∧
          (o.status = some OrderStatus.NEW ∨ o.status = none)) := by
  have hempty : (getAllActiveOrders pairs).isEmpty = false := by
    cases h : getAllActiveOrders pairs with
    | nil => exact absurd h hne
    | cons a l => rfl
  refine ⟨⟨(getAllActiveOrders pairs).map (fun e => e.orderId), sub⟩, ?_, rfl, ?_, ?_⟩
  · simp only [cancelAllActiveOrders, hempty, subaccountMissing, hsub,
      Bool.false_eq_true, if_false]
    cases cancelSucceeds <;> rfl
  · exact List.Nodup.sublist (getAllActiveOrders_ids_sublist pairs) hndup
  · intro id
    rw [mem_getAllActiveOrders_ids]
    constructor
    · rintro ⟨tp, htp, o, hslot, hact, hid⟩
      rcases (isActiveOrder_iff o).mp hact with ⟨hstat, hpre⟩
      exact ⟨tp, htp, o, hslot, hid, hpre, hstat⟩
    · rintro ⟨tp, htp, o, hslot, hid, hpre, hstat⟩
      exact ⟨tp, htp, o, hslot, (isActiveOrder_iff o).mpr ⟨hstat, hpre⟩, hid⟩

/-- Witness for C1: one pair with a NEW bid `B1` and a NEW ask `A1`. -/
theorem c1_shutdown_bulk_cancel_exact_witness :
    ∃ req, (cancelAllActiveOrders (some "acct") true
        [⟨"BTCUSD", some ⟨"B1", "BTCUSD", OrderSide.BID, 1, 1, 0, some OrderStatus.NEW, 0⟩,
          some ⟨"A1", "BTCUSD", OrderSide.ASK, 2, 1, 0, some OrderStatus.NEW, 0⟩, none, none⟩]
        [] []).cancelCall = some req ∧
      req.subaccount = "acct" ∧
      req.order_ids.Nodup ∧
      (∀ id, id ∈ req.order_ids ↔
        ∃ tp ∈ [(⟨"BTCUSD", some ⟨"B1", "BTCUSD", OrderSide.BID, 1, 1, 0, some OrderStatus.NEW, 0⟩,
          some ⟨"A1", "BTCUSD", OrderSide.ASK, 2, 1, 0, some OrderStatus.NEW, 0⟩, none, none⟩ :
            TradingPair)], ∃ o,
          (tp.bidOrder = some o ∨ tp.askOrder = some o) ∧
          o.id = id ∧ startsWithPosition o.id = false ∧
          (o.status = some OrderStatus.NEW ∨ o.status = none)) :=
  c1_shutdown_bulk_cancel_exact
    [⟨"BTCUSD", some ⟨"B1", "BTCUSD", OrderSide.BID, 1, 1, 0, some OrderStatus.NEW, 0⟩,
      some ⟨"A1", "BTCUSD", OrderSide.ASK, 2, 1, 0, some OrderStatus.NEW, 0⟩, none, none⟩]
    [] [] "acct" true rfl (by decide) (by decide)

/-- What reconciliation writes into a matching slot: CANCELED or
EXPIRED clears it, any other status overwrites only the status field. -/
def reconciledSlot (status : OrderStatus) (o : Order) : Option Order :=
  if status = OrderStatus.CANCELED ∨ status = OrderStatus.EXPIRED then none
  else some { o with status := some status }

/-- The pair holds an order with the given id in its bid or ask slot. -/
def PairHoldsId (tp : TradingPair) (orderId : String) : Prop :=
  ∃ o, (tp.bidOrder = some o ∨ tp.askOrder = some o) ∧ o.id = orderId

/-- A pair holding no slot with the event's id is returned unchanged and
does not stop the scan. -/
theorem updatePairWithEvent_of_not_holds (orderId : String) (status : OrderStatus)
    (tp : TradingPair) (h : ¬ PairHoldsId tp orderId) :
    updatePairWithEvent orderId status tp = (tp, false) := by
  have hbid : ∀ o, tp.bidOrder = some o → ¬ o.id = orderId :=
    fun o ho he => h ⟨o, Or.inl ho, he⟩
  have hask : ∀ o, tp.askOrder = some o → ¬ o.id = orderId :=
    fun o ho he => h ⟨o, Or.inr ho, he⟩
  obtain ⟨tk, b, a, lp, sp⟩ := tp
  rcases b with _ | ob <;> rcases a with _ | oa <;>
    simp_all [updatePairWithEvent]

/-- A pair whose bid slot holds the event's id (and whose ask slot does
not) has only its bid slot acted upon: cleared on a terminal status,
status-overwritten otherwise. -/
theorem updatePairWithEvent_bid_match (orderId : String) (status : OrderStatus)
    (tp : TradingPair) (o : Order) (hb : tp.bidOrder = some o) (hid : o.id = orderId)
    (hask : ∀ oa, tp.askOrder = some oa → ¬ oa.id = orderId) :
    updatePairWithEvent orderId status tp =
      ({ tp with bidOrder := reconciledSlot status o }, true) := by
  obtain ⟨tk, b, a, lp, sp⟩ := tp
  cases b with
  | none => simp at hb
  | some ob =>
      obtain rfl : ob = o := by simpa using hb
      rcases a with _ | oa <;>
        by_cases hterm : status = OrderStatus.CANCELED ∨ status = OrderStatus.EXPIRED <;>
        simp_all [updatePairWithEvent, reconciledSlot]

/-- Symmetric ask-slot version of `updatePairWithEvent_bid_match`. -/
theorem updatePairWithEvent_ask_match (orderId : String) (status : OrderStatus)
    (tp : TradingPair) (o : Order) (ha : tp.askOrder = some o) (hid : o.id = orderId)
    (hbid : ∀ ob, tp.bidOrder = some ob → ¬ ob.id = orderId) :
    updatePairWithEvent orderId status tp =
      ({ tp with askOrder := reconciledSlot status o }, true) := by
  obtain ⟨tk, b, a, lp, sp⟩ := tp
  cases a with
  | none => simp at ha
  | some oa =>
      obtain rfl : oa = o := by simpa using ha
      rcases b with _ | ob <;>
        by_cases hterm : status = OrderStatus.CANCELED ∨ status = OrderStatus.EXPIRED <;>
        simp_all [updatePairWithEvent, reconciledSlot]

/-- The scan leaves every pair before the first holder unchanged and
stops at the first holder. -/
theorem updateOrderStatus_first_match (orderId : String) (status : OrderStatus)
    (pre post : List TradingPair) (tp tp' : TradingPair)
    (hpre : ∀ p ∈ pre, ¬ PairHoldsId p orderId)
    (hstep : updatePairWithEvent orderId status tp = (tp', true)) :
    updateOrderStatus orderId status (pre ++ tp :: post) = pre ++ tp' :: post := by
  induction pre with
  | nil => simp [updateOrderStatus, hstep]
  | cons p rest ih =>
      simp only [List.cons_append, updateOrderStatus]
      rw [updatePairWithEvent_of_not_holds _ _ _ (hpre p (by simp))]
      simpa using ih (fun q hq => hpre q (by simp [hq]))

/-- C3: reconciliation of an order-status event.  If no slot holds the
event's id, the state is unchanged.  If the first pair holding the id
does so in its bid slot (all earlier pairs hold nothing with the id, the
ask slot does not share the id), then only that slot is acted upon:
CANCELED or EXPIRED clears it, any other status overwrites only its
status field; every other pair is untouched.  Symmetrically for an ask
slot. -/
theorem c3_reconciliation_first_match :
    (∀ (orderId : String) (status : OrderStatus) (pairs : List TradingPair),
      (∀ tp ∈ pairs, ¬ PairHoldsId tp orderId) →
      updateOrderStatus orderId status pairs = pairs) ∧
    (∀ (orderId : String) (status : OrderStatus) (pre post : List TradingPair)
        (tp : TradingPair) (o : Order),
      (∀ p ∈ pre, ¬ PairHoldsId p orderId) →
      tp.bidOrder = some o → o.id = orderId →
      (∀ oa, tp.askOrder = some oa → ¬ oa.id = orderId) →
      updateOrderStatus orderId status (pre ++ tp :: post) =
        pre ++ { tp with bidOrder := reconciledSlot status o } :: post) ∧
    (∀ (orderId : String) (status : OrderStatus) (pre post : List TradingPair)
        (tp : TradingPair) (o : Order),
      (∀ p ∈ pre, ¬ PairHoldsId p orderId) →
      tp.askOrder = some o → o.id = orderId →
      (∀ ob, tp.bidOrder = some ob → ¬ ob.id = orderId) →
      updateOrderStatus orderId status (pre ++ tp :: post) =
        pre ++ { tp with askOrder := reconciledSlot status o } :: post) := by
  refine ⟨?_, ?_, ?_⟩
  · intro orderId status pairs h
    induction pairs with
    | nil => rfl
    | cons tp rest ih =>
        simp only [updateOrderStatus]
        rw [updatePairWithEvent_of_not_holds _ _ _ (h tp (by simp))]
        simpa using ih (fun q hq => h q (by simp [hq]))
  · intro orderId status pre post tp o hpre hb hid hask
    exact updateOrderStatus_first_match orderId status pre post tp _ hpre
      (updatePairWithEvent_bid_match orderId status tp o hb hid hask)
  · intro orderId status pre post tp o hpre ha hid hbid
    exact updateOrderStatus_first_match orderId status pre post tp _ hpre
      (updatePairWithEvent_ask_match orderId status tp o ha hid hbid)

/-- C4 fails as stated: with a single pair holding only a synthetic
position order (FILLED, id prefixed `position-`) and a held creation
lock, the shutdown procedure returns early on the empty active-order
list, so the slot is still occupied and the lock set untouched. -/
theorem c4_counterexample :
    ¬ ((cancelAllActiveOrders (some "acct") true
          [⟨"ETHUSD", some ⟨"position-bid-P", "ETHUSD", OrderSide.BID, 1, 1, 1,
            some OrderStatus.FILLED, 0⟩, none, none, none⟩]
          ["ETHUSD"] []).pairs.all
        (fun tp => tp.bidOrder.isNone && tp.askOrder.isNone) = true ∧
      (cancelAllActiveOrders (some "acct") true
          [⟨"ETHUSD", some ⟨"position-bid-P", "ETHUSD", OrderSide.BID, 1, 1, 1,
            some OrderStatus.FILLED, 0⟩, none, none, none⟩]
          ["ETHUSD"] []).creationLocks = []) := by
  decide

/-- C4 amended: whenever the shutdown procedure reaches the bulk cancel
(it issues a request), both in-flight lock sets are cleared whatever the
call's outcome (the clearing precedes the call); when the call succeeds,
every slot is empty afterwards; when the subaccount env is absent the
error is logged and the bulk cancel skipped, state untouched; when there
are no active orders the procedure returns early, leaving slots and
locks untouched. -/
theorem c4_shutdown_cleanup_amended :
    (∀ (subaccountEnv : Option String) (ok : Bool) (pairs : List TradingPair)
        (cl ccl : List String),
      ((cancelAllActiveOrders subaccountEnv ok pairs cl ccl).cancelCall).isSome = true →
        (cancelAllActiveOrders subaccountEnv ok pairs cl ccl).creationLocks = [] ∧
        (cancelAllActiveOrders subaccountEnv ok pairs cl ccl).cancellationLocks = []) ∧
    (∀ (subaccountEnv : Option String) (pairs : List TradingPair) (cl ccl : List String),
      ((cancelAllActiveOrders subaccountEnv true pairs cl ccl).cancelCall).isSome = true →
        ∀ tp ∈ (cancelAllActiveOrders subaccountEnv true pairs cl ccl).pairs,
          tp.bidOrder = none ∧ tp.askOrder = none) ∧
    (∀ (subaccountEnv : Option String) (ok : Bool) (pairs : List TradingPair)
        (cl ccl : List String),
      subaccountMissing subaccountEnv = true →
      getAllActiveOrders pairs ≠ [] →
      cancelAllActiveOrders subaccountEnv ok pairs cl ccl = ⟨pairs, cl, ccl, none, true⟩) ∧
    (∀ (subaccountEnv : Option String) (ok : Bool) (pairs : List TradingPair)
        (cl ccl : List String),
      getAllActiveOrders pairs = [] →
      cancelAllActiveOrders subaccountEnv ok pairs cl ccl = ⟨pairs, cl, ccl, none, false⟩) := by
  refine ⟨?_, ?_, ?_, ?_⟩
  · intro subaccountEnv ok pairs cl ccl hsome
    by_cases he : (getAllActiveOrders pairs).isEmpty = true
    · simp [cancelAllActiveOrders, he] at hsome
    · by_cases hm : subaccountMissing subaccountEnv = true
      · simp [cancelAllActiveOrders, he, hm] at hsome
      · cases ok <;>
          simp [cancelAllActiveOrders, he, hm]
  · intro subaccountEnv pairs cl ccl hsome tp htp
    by_cases he : (getAllActiveOrders pairs).isEmpty = true
    · simp [cancelAllActiveOrders, he] at hsome
    · by_cases hm : subaccountMissing subaccountEnv = true
      · simp [cancelAllActiveOrders, he, hm] at hsome
      · simp [cancelAllActiveOrders, he, hm] at htp
        obtain ⟨p, -, rfl⟩ := htp
        exact ⟨rfl, rfl⟩
  · intro subaccountEnv ok pairs cl ccl hm hne
    have he : (getAllActiveOrders pairs).isEmpty = false := by
      cases h : getAllActiveOrders pairs with
      | nil => exact absurd h hne
      | cons a l => rfl
    simp [cancelAllActiveOrders, he, hm]
  · intro subaccountEnv ok pairs cl ccl he
    simp [cancelAllActiveOrders, he]

/-- A found pair carries the looked-up ticker. -/
theorem lookupPair_ticker {pairs : List TradingPair} {t : String} {p : TradingPair}
    (h : lookupPair pairs t = some p) : p.ticker = t := by
  unfold lookupPair at h
  simpa using List.find?_some h

/-- The get-or-create pair carries the looked-up ticker. -/
theorem lookupPair_getD_ticker (pairs : List TradingPair) (t : String) :
    ((lookupPair pairs t).getD { ticker := t }).ticker = t := by
  cases h : lookupPair pairs t with
  | none => rfl
  | some p => simpa using lookupPair_ticker h

/-- Replacing the matching entries makes the first match the stored pair. -/
theorem find?_map_self (pairs : List TradingPair) (tp : TradingPair)
    (hany : pairs.any (fun p => p.ticker = tp.ticker) = true) :
    (pairs.map (fun p => if p.ticker = tp.ticker then tp else p)).find?
      (fun p => p.ticker = tp.ticker) = some tp := by
  induction pairs with
  | nil => simp at hany
  | cons p rest ih =>
      by_cases hp : p.ticker = tp.ticker
      · simp [hp, List.find?_cons]
      · simp only [List.map_cons, if_neg hp, List.find?_cons]
        have : (decide (p.ticker = tp.ticker)) = false := by simp [hp]
        rw [this]
        exact ih (by simpa [hp] using hany)

/-- Appending the stored pair finds it when no earlier entry matches. -/
theorem find?_append_of_none (pairs : List TradingPair) (tp : TradingPair)
    (hany : ¬ pairs.any (fun p => p.ticker = tp.ticker) = true) :
    (pairs ++ [tp]).find? (fun p => p.ticker = tp.ticker) = some tp := by
  induction pairs with
  | nil => simp [List.find?_cons]
  | cons p rest ih =>
      have hp : ¬ p.ticker = tp.ticker := fun h => hany (by simp [h])
      simp only [List.cons_append, List.find?_cons]
      have : (decide (p.ticker = tp.ticker)) = false := by simp [hp]
      rw [this]
      exact ih (fun h => hany (by simp [h]))

/-- After `setPair`, looking the pair's ticker up yields that pair. -/
theorem lookupPair_setPair (pairs : List TradingPair) (tp : TradingPair) :
    lookupPair (setPair pairs tp) tp.ticker = some tp := by
  unfold setPair lookupPair
  by_cases hany : pairs.any (fun p => p.ticker = tp.ticker) = true
  · rw [if_pos hany]
    exact find?_map_self pairs tp hany
  · rw [if_neg hany]
    exact find?_append_of_none pairs tp hany

/-- C8: one warmup position with a resolvable ticker.  Positive parsed
quantity installs a LONG inventory record and a synthetic FILLED bid
with id `position-bid-<productId>`, price the entry price and quantity
its absolute value, leaving the ask slot and short inventory as before;
negative quantity installs the symmetric SHORT record and synthetic ask;
a zero quantity installs nothing (the stored pair is the prior pair, or
a fresh empty one). -/
theorem c8_position_warmup (assetConfigs : List AssetConfig) (now : ℤ)
    (pairs : List TradingPair) (pos : ParsedPosition) (t pid : String)
    (ht : resolveTicker assetConfigs pos = some t)
    (hpid : pos.productId = some pid) :
    (0 < pos.quantity → ∃ tp',
      lookupPair (processPosition assetConfigs now pairs pos) t = some tp' ∧
      tp'.longPosition = some ⟨t, PositionSide.LONG, |pos.quantity|, pos.entryPrice, now⟩ ∧
      tp'.bidOrder = some ⟨"position-bid-" ++ pid, t, OrderSide.BID, pos.entryPrice,
        |pos.quantity|, |pos.quantity|, some OrderStatus.FILLED, now⟩ ∧
      tp'.askOrder = ((lookupPair pairs t).getD { ticker := t }).askOrder ∧
      tp'.shortPosition = ((lookupPair pairs t).getD { ticker := t }).shortPosition) ∧
    (pos.quantity < 0 → ∃ tp',
      lookupPair (processPosition assetConfigs now pairs pos) t = some tp' ∧
      tp'.shortPosition = some ⟨t, PositionSide.SHORT, |pos.quantity|, pos.entryPrice, now⟩ ∧
      tp'.askOrder = some ⟨"position-ask-" ++ pid, t, OrderSide.ASK, pos.entryPrice,
        |pos.quantity|, |pos.quantity|, some OrderStatus.FILLED, now⟩ ∧
      tp'.bidOrder = ((lookupPair pairs t).getD { ticker := t }).bidOrder ∧
      tp'.longPosition = ((lookupPair pairs t).getD { ticker := t }).longPosition) ∧
    (pos.quantity = 0 →
      lookupPair (processPosition assetConfigs now pairs pos) t =
        some ((lookupPair pairs t).getD { ticker := t })) := by
  have htk : ((lookupPair pairs t).getD { ticker := t }).ticker = t :=
    lookupPair_getD_ticker pairs t
  have hpidstr : pidString pos = pid := by simp [pidString, hpid]
  refine ⟨?_, ?_, ?_⟩
  · intro hq
    refine ⟨{ (lookupPair pairs t).getD { ticker := t } with
        longPosition := some ⟨t, PositionSide.LONG, |pos.quantity|, pos.entryPrice, now⟩
        bidOrder := some ⟨"position-bid-" ++ pidString pos, t, OrderSide.BID,
          pos.entryPrice, |pos.quantity|, |pos.quantity|, some OrderStatus.FILLED, now⟩ },
      ?_, rfl, ?_, rfl, rfl⟩
    · simp only [processPosition, ht, if_pos hq]
      have := lookupPair_setPair pairs
        { (lookupPair pairs t).getD { ticker := t } with
          longPosition := some ⟨t, PositionSide.LONG, |pos.quantity|, pos.entryPrice, now⟩
          bidOrder := some ⟨"position-bid-" ++ pidString pos, t, OrderSide.BID,
            pos.entryPrice, |pos.quantity|, |pos.quantity|, some OrderStatus.FILLED, now⟩ }
      simpa [htk] using this
    · simp [hpidstr]
  · intro hq
    have hq' : ¬ 0 < pos.quantity := by linarith
    refine ⟨{ (lookupPair pairs t).getD { ticker := t } with
        shortPosition := some ⟨t, PositionSide.SHORT, |pos.quantity|, pos.entryPrice, now⟩
        askOrder := some ⟨"position-ask-" ++ pidString pos, t, OrderSide.ASK,
          pos.entryPrice, |pos.quantity|, |pos.quantity|, some OrderStatus.FILLED, now⟩ },
      ?_, rfl, ?_, rfl, rfl⟩
    · simp only [processPosition, ht, if_neg hq', if_pos hq]
      have := lookupPair_setPair pairs
        { (lookupPair pairs t).getD { ticker := t } with
          shortPosition := some ⟨t, PositionSide.SHORT, |pos.quantity|, pos.entryPrice, now⟩
          askOrder := some ⟨"position-ask-" ++ pidString pos, t, OrderSide.ASK,
            pos.entryPrice, |pos.quantity|, |pos.quantity|, some OrderStatus.FILLED, now⟩ }
      simpa [htk] using this
    · simp [hpidstr]
  · intro hq
    have h1 : ¬ 0 < pos.quantity := by simp [hq]
    have h2 : ¬ pos.quantity < 0 := by simp [hq]
    simp only [processPosition, ht, if_neg h1, if_neg h2]
    have := lookupPair_setPair pairs ((lookupPair pairs t).getD { ticker := t })
    simpa [htk] using this

/-- Witness for C8: a long position of 1 at entry 45000 on product P. -/
theorem c8_position_warmup_witness : ∃ tp',
    lookupPair (processPosition [] 0 []
        ⟨some "P", some "BTCUSD", none, 1, 45000⟩) "BTCUSD" = some tp' ∧
    tp'.longPosition = some ⟨"BTCUSD", PositionSide.LONG, |(1 : ℚ)|, 45000, 0⟩ ∧
    tp'.bidOrder = some ⟨"position-bid-" ++ "P", "BTCUSD", OrderSide.BID, 45000,
      |(1 : ℚ)|, |(1 : ℚ)|, some OrderStatus.FILLED, 0⟩ ∧
    tp'.askOrder = ((lookupPair [] "BTCUSD").getD { ticker := "BTCUSD" }).askOrder ∧
    tp'.shortPosition = ((lookupPair [] "BTCUSD").getD { ticker := "BTCUSD" }).shortPosition :=
  (c8_position_warmup [] 0 [] ⟨some "P", some "BTCUSD", none, 1, 45000⟩
    "BTCUSD" "P" rfl rfl).1 (by norm_num)

/-- Every cancel request `cancelOrder` sends carries exactly the one
order id it was asked to cancel. -/
theorem cancelOrderAction_emitted (subaccountEnv : Option String) (ok : Bool)
    (ticker orderId : String) (side : OrderSide) (pairs : List TradingPair) :
    ∀ req ∈ (cancelOrderAction subaccountEnv ok ticker orderId side pairs).2,
      req.order_ids = [orderId] := by
  intro req hreq
  unfold cancelOrderAction at hreq
  split at hreq
  · simp at hreq
  · split at hreq
    · split at hreq <;> (simp at hreq; subst hreq; rfl)
    · simp at hreq; subst hreq; rfl

/-- A bid flagged for deviation cancel has status NEW. -/
theorem shouldCancelBid_status (tp : TradingPair) (ms : MarketState) (o : Order)
    (hb : tp.bidOrder = some o)
    (hc : (checkOrdersAndPositions tp ms).shouldCancelBid = true) :
    o.status = some OrderStatus.NEW := by
  simp [checkOrdersAndPositions, hb] at hc
  exact hc.1

/-- An ask flagged for deviation cancel has status NEW. -/
theorem shouldCancelAsk_status (tp : TradingPair) (ms : MarketState) (o : Order)
    (ha : tp.askOrder = some o)
    (hc : (checkOrdersAndPositions tp ms).shouldCancelAsk = true) :
    o.status = some OrderStatus.NEW := by
  simp [checkOrdersAndPositions, ha] at hc
  exact hc.1

/-- Every cancel request a deviation pass emits names exactly one order,
and that order sits in a slot of the pre-state with status NEW. -/
theorem deviationCheckStep_emitted (devConfig : MarketConfig)
    (assetConfigs : List AssetConfig) (subaccountEnv : Option String)
    (bidCancelOk askCancelOk : Bool) (nowMs : ℤ) (ticker : String)
    (currentPrice : ℚ) (s : EngineState) :
    ∀ req ∈ (deviationCheckStep devConfig assetConfigs subaccountEnv bidCancelOk
        askCancelOk nowMs ticker currentPrice s).emitted,
      ∃ o, HeldInSlot s.pairs o ∧ o.status = some OrderStatus.NEW ∧
        req.order_ids = [o.id] := by
  intro req hreq
  unfold deviationCheckStep at hreq
  cases hlp : lookupPair s.pairs ticker with
  | none => simp only [hlp] at hreq; simp at hreq
  | some tp =>
    simp only [hlp] at hreq
    have htpmem : tp ∈ s.pairs := by
      unfold lookupPair at hlp
      exact List.mem_of_find?_eq_some hlp
    cases hf : assetConfigs.find? (fun c => c.ticker = ticker) with
    | none => simp only [hf] at hreq; simp at hreq
    | some config =>
      simp only [hf] at hreq
      rw [List.mem_append] at hreq
      rcases hreq with h | h
      · cases hb : tp.bidOrder with
        | none => simp only [hb] at h; simp at h
        | some ob =>
            simp only [hb] at h
            by_cases hc : (checkOrdersAndPositions tp (calculateMarketState devConfig
                ticker currentPrice config.maxPriceDeviation nowMs)).shouldCancelBid = true
            · simp only [hc, if_true] at h
              by_cases hk : (ticker ++ "-bid-" ++ ob.id) ∈ s.cancellationLocks
              · simp only [hk, if_pos] at h; simp at h
              · simp only [hk, if_neg, not_false_iff] at h
                exact ⟨ob, ⟨tp, htpmem, Or.inl hb⟩, shouldCancelBid_status tp _ ob hb hc,
                  cancelOrderAction_emitted subaccountEnv bidCancelOk ticker ob.id
                    OrderSide.BID s.pairs req h⟩
            · simp only [hc, if_false] at h
              simp at h
      · cases ha : tp.askOrder with
        | none => simp only [ha] at h; simp at h
        | some oa =>
            simp only [ha] at h
            by_cases hc : (checkOrdersAndPositions tp (calculateMarketState devConfig
                ticker currentPrice config.maxPriceDeviation nowMs)).shouldCancelAsk = true
            · simp only [hc, if_true] at h
              by_cases hk : (ticker ++ "-ask-" ++ oa.id) ∈ s.cancellationLocks
              · simp only [hk, if_pos] at h; simp at h
              · simp only [hk, if_neg, not_false_iff] at h
                exact ⟨oa, ⟨tp, htpmem, Or.inr ha⟩, shouldCancelAsk_status tp _ oa ha hc,
                  cancelOrderAction_emitted subaccountEnv askCancelOk ticker oa.id
                    OrderSide.ASK _ req h⟩
            · simp only [hc, if_false] at h
              simp at h

/-- C9: lock discipline of the cadence passes.  (1) While the
per-instrument creation lock is held, a placement pass for that
instrument does nothing and emits nothing, so at most one placement
round is in flight per instrument.  (2) On every exit path of a
placement round — success, missing response id, thrown placement — the
creation-lock set is restored to its value at entry (take then release
in the `finally`).  (3) A deviation pass restores the cancellation-lock
set on every exit path.  (4) While one (instrument, BID, order id)
cancel key is held, a deviation pass emits no request naming that order
(with the sibling slot's id distinct, as ids are globally unique), so at
most one cancel is in flight per key; (5) symmetrically for an ASK key.
(6) With every slot's key held the pass is a complete no-op. -/
theorem c9_single_flight_locks :
    (∀ (assetConfigs : List AssetConfig) (nowMs : ℤ) (bidOutcome askOutcome : PlaceOutcome)
        (ticker : String) (currentPrice : ℚ) (s : EngineState),
      ticker ∈ s.creationLocks →
      checkAndCreateOrders assetConfigs nowMs bidOutcome askOutcome ticker currentPrice s =
        ⟨s, []⟩) ∧
    (∀ (assetConfigs : List AssetConfig) (nowMs : ℤ) (bidOutcome askOutcome : PlaceOutcome)
        (ticker : String) (currentPrice : ℚ) (s : EngineState),
      (checkAndCreateOrders assetConfigs nowMs bidOutcome askOutcome ticker
        currentPrice s).state.creationLocks = s.creationLocks) ∧
    (∀ (devConfig : MarketConfig) (assetConfigs : List AssetConfig)
        (subaccountEnv : Option String) (bidCancelOk askCancelOk : Bool) (nowMs : ℤ)
        (ticker : String) (currentPrice : ℚ) (s : EngineState),
      (deviationCheckStep devConfig assetConfigs subaccountEnv bidCancelOk askCancelOk
        nowMs ticker currentPrice s).state.cancellationLocks = s.cancellationLocks) ∧
    (∀ (devConfig : MarketConfig) (assetConfigs : List AssetConfig)
        (subaccountEnv : Option String) (bidCancelOk askCancelOk : Bool) (nowMs : ℤ)
        (ticker : String) (currentPrice : ℚ) (s : EngineState) (tp : TradingPair)
        (o : Order),
      lookupPair s.pairs ticker = some tp →
      tp.bidOrder = some o →
      (ticker ++ "-bid-" ++ o.id) ∈ s.cancellationLocks →
      (∀ oa, tp.askOrder = some oa → ¬ oa.id = o.id) →
      ∀ req ∈ (deviationCheckStep devConfig assetConfigs subaccountEnv bidCancelOk
          askCancelOk nowMs ticker currentPrice s).emitted,
        o.id ∉ req.order_ids) ∧
    (∀ (devConfig : MarketConfig) (assetConfigs : List AssetConfig)
        (subaccountEnv : Option String) (bidCancelOk askCancelOk : Bool) (nowMs : ℤ)
        (ticker : String) (currentPrice : ℚ) (s : EngineState) (tp : TradingPair)
        (o : Order),
      lookupPair s.pairs ticker = some tp →
      tp.askOrder = some o →
      (ticker ++ "-ask-" ++ o.id) ∈ s.cancellationLocks →
      (∀ ob, tp.bidOrder = some ob → ¬ ob.id = o.id) →
      ∀ req ∈ (deviationCheckStep devConfig assetConfigs subaccountEnv bidCancelOk
          askCancelOk nowMs ticker currentPrice s).emitted,
        o.id ∉ req.order_ids) ∧
    (∀ (devConfig : MarketConfig) (assetConfigs : List AssetConfig)
        (subaccountEnv : Option String) (bidCancelOk askCancelOk : Bool) (nowMs : ℤ)
        (ticker : String) (currentPrice : ℚ) (s : EngineState) (tp : TradingPair),
      lookupPair s.pairs ticker = some tp →
      (∀ o, tp.bidOrder = some o → (ticker ++ "-bid-" ++ o.id) ∈ s.cancellationLocks) →
      (∀ o, tp.askOrder = some o → (ticker ++ "-ask-" ++ o.id) ∈ s.cancellationLocks) →
      deviationCheckStep devConfig assetConfigs subaccountEnv bidCancelOk askCancelOk
        nowMs ticker currentPrice s = ⟨s, []⟩) := by
  refine ⟨?_, ?_, ?_, ?_, ?_, ?_⟩
  · intro assetConfigs nowMs bidOutcome askOutcome ticker currentPrice s hlock
    unfold checkAndCreateOrders
    cases assetConfigs.find? (fun c => c.ticker = ticker) with
    | none => rfl
    | some config => simp [hlock]
  · intro assetConfigs nowMs bidOutcome askOutcome ticker currentPrice s
    unfold checkAndCreateOrders
    cases assetConfigs.find? (fun c => c.ticker = ticker) with
    | none => rfl
    | some config =>
        by_cases hlock : ticker ∈ s.creationLocks
        · simp [hlock]
        · simp only [hlock, if_false, if_neg]
          set tp := (lookupPair s.pairs ticker).getD { ticker := ticker }
          by_cases hneed : (tp.bidOrder.isNone || tp.askOrder.isNone) = true
          · simp [hneed, insertLock, hlock]
          · simp [hneed]
  · intro devConfig assetConfigs subaccountEnv bidCancelOk askCancelOk nowMs
      ticker currentPrice s
    unfold deviationCheckStep
    cases lookupPair s.pairs ticker with
    | none => rfl
    | some tp =>
        cases assetConfigs.find? (fun c => c.ticker = ticker) with
        | none => rfl
        | some config => rfl
  · intro devConfig assetConfigs subaccountEnv bidCancelOk askCancelOk nowMs
      ticker currentPrice s tp o hlp hb hkey haskne req hreq
    unfold deviationCheckStep at hreq
    simp only [hlp] at hreq
    cases hf : assetConfigs.find? (fun c => c.ticker = ticker) with
    | none => simp only [hf] at hreq; simp at hreq
    | some config =>
      simp only [hf] at hreq
      rw [List.mem_append] at hreq
      rcases hreq with h | h
      · simp only [hb] at h
        by_cases hc : (checkOrdersAndPositions tp (calculateMarketState devConfig
            ticker currentPrice config.maxPriceDeviation nowMs)).shouldCancelBid = true
        · simp only [hc, if_true] at h
          simp only [hkey, if_pos] at h
          simp at h
        · simp only [hc, if_false] at h
          simp at h
      · cases ha : tp.askOrder with
        | none => simp only [ha] at h; simp at h
        | some oa =>
            simp only [ha] at h
            by_cases hc : (checkOrdersAndPositions tp (calculateMarketState devConfig
                ticker currentPrice config.maxPriceDeviation nowMs)).shouldCancelAsk = true
            · simp only [hc, if_true] at h
              by_cases hk : (ticker ++ "-ask-" ++ oa.id) ∈ s.cancellationLocks
              · simp only [hk, if_pos] at h; simp at h
              · simp only [hk, if_neg, not_false_iff] at h
                rw [cancelOrderAction_emitted subaccountEnv askCancelOk ticker oa.id
                  OrderSide.ASK _ req h]
                simp only [List.mem_singleton]
                intro he
                exact haskne oa ha he.symm
            · simp only [hc, if_false] at h
              simp at h
  · intro devConfig assetConfigs subaccountEnv bidCancelOk askCancelOk nowMs
      ticker currentPrice s tp o hlp ha hkey hbidne req hreq
    unfold deviationCheckStep at hreq
    simp only [hlp] at hreq
    cases hf : assetConfigs.find? (fun c => c.ticker = ticker) with
    | none => simp only [hf] at hreq; simp at hreq
    | some config =>
      simp only [hf] at hreq
      rw [List.mem_append] at hreq
      rcases hreq with h | h
      · cases hb : tp.bidOrder with
        | none => simp only [hb] at h; simp at h
        | some ob =>
            simp only [hb] at h
            by_cases hc : (checkOrdersAndPositions tp (calculateMarketState devConfig
                ticker currentPrice config.maxPriceDeviation nowMs)).shouldCancelBid = true
            · simp only [hc, if_true] at h
              by_cases hk : (ticker ++ "-bid-" ++ ob.id) ∈ s.cancellationLocks
              · simp only [hk, if_pos] at h; simp at h
              · simp only [hk, if_neg, not_false_iff] at h
                rw [cancelOrderAction_emitted subaccountEnv bidCancelOk ticker ob.id
                  OrderSide.BID _ req h]
                simp only [List.mem_singleton]
                intro he
                exact hbidne ob hb he.symm
            · simp only [hc, if_false] at h
              simp at h
      · simp only [ha] at h
        by_cases hc : (checkOrdersAndPositions tp (calculateMarketState devConfig
            ticker currentPrice config.maxPriceDeviation nowMs)).shouldCancelAsk = true
        · simp only [hc, if_true] at h
          simp only [hkey, if_pos] at h
          simp at h
        · simp only [hc, if_false] at h
          simp at h
  · intro devConfig assetConfigs subaccountEnv bidCancelOk askCancelOk nowMs
      ticker currentPrice s tp hlp hbid hask
    unfold deviationCheckStep
    rw [hlp]
    cases hf : assetConfigs.find? (fun c => c.ticker = ticker) with
    | none => rfl
    | some config =>
        cases hb : tp.bidOrder with
        | none =>
            cases ha : tp.askOrder with
            | none => simp [hb, ha]
            | some oa => simp [hb, ha, hask oa ha]
        | some ob =>
            cases ha : tp.askOrder with
            | none => simp [hb, ha, hbid ob hb]
            | some oa => simp [hb, ha, hbid ob hb, hask oa ha]

/-- The id of a slot order appears among the slot ids. -/
theorem id_mem_pairSlotIds {p : TradingPair} {o : Order}
    (h : p.bidOrder = some o ∨ p.askOrder = some o) : o.id ∈ pairSlotIds p := by
  unfold pairSlotIds
  rcases h with h | h <;> simp [h]

/-- Holding a slot of a cons decomposes into head or tail. -/
theorem heldInSlot_cons {p : TradingPair} {rest : List TradingPair} {o : Order} :
    HeldInSlot (p :: rest) o ↔
      (p.bidOrder = some o ∨ p.askOrder = some o) ∨ HeldInSlot rest o := by
  unfold HeldInSlot
  constructor
  · rintro ⟨tp, htp, hs⟩
    rcases List.mem_cons.mp htp with h | h
    · subst h; exact Or.inl hs
    · exact Or.inr ⟨tp, h, hs⟩
  · rintro (hs | ⟨tp, htp, hs⟩)
    · exact ⟨p, List.mem_cons_self p rest, hs⟩
    · exact ⟨tp, List.mem_cons_of_mem p htp, hs⟩

/-- Under pairwise-distinct slot ids, two slot orders with the same id
are the same order. -/
theorem heldInSlot_unique (pairs : List TradingPair)
    (hndup : (slotIds pairs).Nodup) (o o' : Order)
    (h : HeldInSlot pairs o) (h' : HeldInSlot pairs o') (hid : o.id = o'.id) :
    o = o' := by
  induction pairs with
  | nil =>
      obtain ⟨tp, htp, _⟩ := h
      simp at htp
  | cons p rest ih =>
      rw [slotIds, List.flatMap_cons, List.nodup_append] at hndup
      obtain ⟨hnd1, hnd2, hdisj⟩ := hndup
      rcases heldInSlot_cons.mp h with hs | hrest
      · rcases heldInSlot_cons.mp h' with hs' | hrest'
        · rcases hs with hb | ha <;> rcases hs' with hb' | ha'
          · rw [hb] at hb'; exact Option.some.inj hb'
          · exfalso
            have hp := hnd1
            simp [pairSlotIds, hb, ha'] at hp
            exact hp hid
          · exfalso
            have hp := hnd1
            simp [pairSlotIds, hb', ha] at hp
            exact hp hid.symm
          · rw [ha] at ha'; exact Option.some.inj ha'
        · exfalso
          refine hdisj (id_mem_pairSlotIds hs) ?_
          rw [hid]
          obtain ⟨tp', htp', hs'⟩ := hrest'
          exact List.mem_flatMap.mpr ⟨tp', htp', id_mem_pairSlotIds hs'⟩
      · rcases heldInSlot_cons.mp h' with hs' | hrest'
        · exfalso
          refine hdisj (id_mem_pairSlotIds hs') ?_
          rw [← hid]
          obtain ⟨tp, htp, hs⟩ := hrest
          exact List.mem_flatMap.mpr ⟨tp, htp, id_mem_pairSlotIds hs⟩
        · exact ih hnd2 hrest hrest'

/-- An issued shutdown bulk cancel carries exactly the active order ids. -/
theorem cancelAllActiveOrders_call_ids (subaccountEnv : Option String) (ok : Bool)
    (pairs : List TradingPair) (cl ccl : List String) (req : CancelOrderRequest)
    (h : (cancelAllActiveOrders subaccountEnv ok pairs cl ccl).cancelCall = some req) :
    req.order_ids = (getAllActiveOrders pairs).map (fun e => e.orderId) := by
  by_cases he : (getAllActiveOrders pairs).isEmpty = true
  · simp [cancelAllActiveOrders, he] at h
  · by_cases hm : subaccountMissing subaccountEnv = true
    · simp [cancelAllActiveOrders, he, hm] at h
    · cases ok <;>
        (simp [cancelAllActiveOrders, he, hm] at h; subst h; rfl)

/-- C7: along any engine transition (warmup, order-status event,
deviation pass, placement pass, paired-fill cleanup, shutdown) from a
state whose slot ids are pairwise distinct, a synthetic position order —
held in a slot, id prefixed `position-`, status FILLED — is never named
by any request sent to the exchange adapter: placement requests carry no
order ids at all, and no cancel request's id list contains its id. -/
theorem c7_synthetic_never_sent (s : EngineState) (ems : List Emission)
    (s' : EngineState) (hstep : Step s ems s')
    (hndup : (slotIds s.pairs).Nodup)
    (o : Order) (hheld : HeldInSlot s.pairs o)
    (hpos : startsWithPosition o.id = true)
    (hfilled : o.status = some OrderStatus.FILLED) :
    ∀ e ∈ ems, o.id ∉ e.orderIds := by
  intro e he
  cases hstep with
  | warmup assetConfigs now pos => simp at he
  | statusEvent orderId status => simp at he
  | pairedFillCleanup ticker => simp at he
  | placementPass assetConfigs nowMs bidOutcome askOutcome ticker currentPrice =>
      rcases List.mem_map.mp he with ⟨req, -, rfl⟩
      simp [Emission.orderIds]
  | deviationPass devConfig assetConfigs subaccountEnv bidCancelOk askCancelOk
      nowMs ticker currentPrice =>
      rcases List.mem_map.mp he with ⟨req, hreq, rfl⟩
      obtain ⟨o', ho', hnew, hids⟩ :=
        deviationCheckStep_emitted devConfig assetConfigs subaccountEnv bidCancelOk
          askCancelOk nowMs ticker currentPrice s req hreq
      simp only [Emission.orderIds, hids, List.mem_singleton]
      intro hideq
      have heq : o = o' := heldInSlot_unique s.pairs hndup o o' hheld ho' hideq
      rw [heq, hnew] at hfilled
      simp at hfilled
  | shutdownCancelAll subaccountEnv ok =>
      simp only [shutdownEmissions] at he
      rcases List.mem_map.mp he with ⟨req, hreq, rfl⟩
      have hcall : (shutdownResult subaccountEnv ok s).cancelCall = some req := by
        cases hc : (shutdownResult subaccountEnv ok s).cancelCall with
        | none => rw [hc] at hreq; simp at hreq
        | some r =>
            rw [hc] at hreq
            simp at hreq
            subst hreq
            rfl
      have hids := cancelAllActiveOrders_call_ids subaccountEnv ok s.pairs
        s.creationLocks s.cancellationLocks req hcall
      simp only [Emission.orderIds, hids]
      intro hmem
      rcases (mem_getAllActiveOrders_ids s.pairs o.id).mp hmem with
        ⟨tp, htp, o', hslot, hact, hid⟩
      rcases (isActiveOrder_iff o').mp hact with ⟨-, hpre⟩
      rw [hid, hpos] at hpre
      exact absurd hpre (by decide)

/-- Witness for C7: a shutdown step from a state holding a synthetic
FILLED bid and a NEW ask; the bulk cancel names only the NEW ask. -/
theorem c7_synthetic_never_sent_witness :
    ("position-bid-P" : String) ∉ (Emission.cancel ⟨["A1"], "acct"⟩).orderIds :=
  c7_synthetic_never_sent
    ⟨[⟨"BTCUSD",
        some ⟨"position-bid-P", "BTCUSD", OrderSide.BID, 1, 1, 1, some OrderStatus.FILLED, 0⟩,
        some ⟨"A1", "BTCUSD", OrderSide.ASK, 2, 1, 0, some OrderStatus.NEW, 0⟩,
        none, none⟩], [], []⟩
    _ _
    (Step.shutdownCancelAll (some "acct") true _)
    (by decide)
    ⟨"position-bid-P", "BTCUSD", OrderSide.BID, 1, 1, 1, some OrderStatus.FILLED, 0⟩
    ⟨⟨"BTCUSD",
        some ⟨"position-bid-P", "BTCUSD", OrderSide.BID, 1, 1, 1, some OrderStatus.FILLED, 0⟩,
        some ⟨"A1", "BTCUSD", OrderSide.ASK, 2, 1, 0, some OrderStatus.NEW, 0⟩,
        none, none⟩,
      by simp, Or.inl rfl⟩
    (by decide) rfl
    (Emission.cancel ⟨["A1"], "acct"⟩)
    (by decide)

end MarketMaker
